import Mathlib

/-!
Shallow embedding of the yardgoat job-execution pipeline
(bundle configuration, bundler, object URIs, jobs, queue, engine volume
resolution, worker cycle) together with theorems settling the spec claims.
Each definition is translated from the corresponding Python source file;
external collaborators (the TOML library, hashing, tar packing, the ulid
library, the container backend) are modelled at their interface boundary,
as documented on each definition.
-/

namespace Yardgoat

/-- A TOML value of the shapes produced by the external toml library for the
documents this system reads and writes: strings, arrays, and tables with
string keys.  Integers, floats, booleans and dates never occur in the data
this development reasons about. -/
inductive Toml
  | str (s : String)
  | arr (elems : List Toml)
  | table (kvs : List (String × Toml))

/-- Errors raised during BundleConfig parsing and validation
(bundle/exceptions.py and the built-in TypeError and ValueError). -/
inductive ConfigErr
  | missingKey (msg : String)
  | invalidKey (msg : String)
  | typeError (msg : String)
  | valueError (msg : String)
  deriving DecidableEq, Repr

/-- Association-list lookup, modelling a Python dict lookup of a string key. -/
def lookupKey (k : String) : List (String × Toml) → Option Toml
  | [] => none
  | (k', v) :: rest => if k' = k then some v else lookupKey k rest

/-- Coercion of a Python value to a string, modelling the converter
applied to the name field of BundleConfig (attr.ib converter = str).
Only the string branch occurs in the documents this development considers;
the other branches stand in for the Python repr of non-string values. -/
def pyStr : Toml → String
  | .str s => s
  | .arr _ => "<arr>"
  | .table _ => "<table>"

/-- Validator for the cmd and entrypoint fields (config.py, 11-19):
a falsy value or a string or a list passes the first check, and every
element of a list must itself be a string. -/
def is_str_or_strlist (nm : String) : Option Toml → Except ConfigErr Unit
  | none => .ok ()
  | some (.str _) => .ok ()
  | some (.arr elems) =>
      let rec checkElems : List Toml → Except ConfigErr Unit
        | [] => .ok ()
        | .str _ :: rest => checkElems rest
        | _ :: _ =>
            .error (.typeError
              ("all values in the array " ++ nm ++ " must be of type string"))
      checkElems elems
  | some (.table []) => .ok ()
  | some (.table (_ :: _)) =>
      .error (.typeError (nm ++ " must be a string or an array"))

/-- Shorthand normalization for the volumes mapping (config.py, 54-60):
a plain string value v becomes the table with bind = v and mode = rw;
all other values are kept unchanged. -/
def standardize_volumes (volumes : List (String × Toml)) : List (String × Toml) :=
  volumes.map fun kv =>
    match kv.2 with
    | .str s => (kv.1, .table [("bind", .str s), ("mode", .str "rw")])
    | v => (kv.1, v)

/-- Per-entry validation of one volume table value (config.py, 30-51):
bind present and a string, mode present and one of rw and ro, and no
other key. -/
def validate_volume_entry (k : String) (kvs : List (String × Toml)) :
    Except ConfigErr Unit :=
  match lookupKey "bind" kvs with
  | none =>
      .error (.missingKey
        ("expected key bind to be found in volumes value (top level key = " ++ k ++ ")"))
  | some bindVal =>
    match bindVal with
    | .str _ =>
      match lookupKey "mode" kvs with
      | none =>
          .error (.missingKey
            ("expected key mode to be found in volumes value (top level key = " ++ k ++ ")"))
      | some modeVal =>
        match modeVal with
        | .str m =>
          if m = "rw" ∨ m = "ro" then
            if kvs.all (fun kv => kv.1 == "bind" || kv.1 == "mode") then .ok ()
            else
              .error (.invalidKey
                ("unexpected key found in volumes value (top level key = " ++ k ++ ")"))
          else
            .error (.valueError
              ("unsupported value for key mode in volumes value (top level key = " ++ k ++ ")"))
        | _ =>
            .error (.valueError
              ("unsupported value for key mode in volumes value (top level key = " ++ k ++ ")"))
    | _ =>
        .error (.typeError
          ("value of bind in volumes must be of type str (top level key = " ++ k ++ ")"))

/-- Validator for the volumes mapping (config.py, 22-51), applied entry by
entry after shorthand normalization.  Keys are strings by construction of
the embedding; a value must be a string or a table, and a table must pass
the per-entry checks. -/
def validate_volumes_data : List (String × Toml) → Except ConfigErr Unit
  | [] => .ok ()
  | (k, v) :: rest =>
    match v with
    | .str _ => validate_volumes_data rest
    | .table kvs =>
      match validate_volume_entry k kvs with
      | .error e => .error e
      | .ok _ => validate_volumes_data rest
    | .arr _ =>
        .error (.typeError "all entries in volumes must be of type str or dict")

/-- In-memory bundle configuration (config.py, 63-97).  The cmd and
entrypoint fields hold the raw validated Python value (a string or a list
of strings, or absent), and volumes holds the normalized mapping, exactly
as the attrs class stores them. -/
structure BundleConfig where
  name : String
  cmd : Option Toml
  entrypoint : Option Toml
  volumes : List (String × Toml)

/-- Construction of a BundleConfig (config.py, 63-97): the name converter
coerces to a string, the volumes converter normalizes shorthand, and the
validators for cmd, entrypoint and volumes run on the converted values.
A non-table volumes argument fails the instance_of(dict) validator. -/
def mkBundleConfig (nameVal : Toml) (cmd entrypoint : Option Toml)
    (volumes : Toml) : Except ConfigErr BundleConfig :=
  match volumes with
  | .table kvs =>
    let vols := standardize_volumes kvs
    match is_str_or_strlist "cmd" cmd with
    | .error e => .error e
    | .ok _ =>
      match is_str_or_strlist "entrypoint" entrypoint with
      | .error e => .error e
      | .ok _ =>
        match validate_volumes_data vols with
        | .error e => .error e
        | .ok _ => .ok ⟨pyStr nameVal, cmd, entrypoint, vols⟩
  | _ => .error (.typeError "volumes must be a dict")

/-- Serialization front half of BundleConfig.dumps (config.py, 99-106):
attr.asdict lists the four fields in declaration order; absent cmd and
entrypoint appear as Python None, modelled by the Option. -/
def BundleConfig.asdict (c : BundleConfig) : List (String × Option Toml) :=
  [("name", some (.str c.name)), ("cmd", c.cmd), ("entrypoint", c.entrypoint),
   ("volumes", some (.table c.volumes))]

/-- Model of the external toml library at this document shape (the spec
treats TOML serialization as an out-of-scope collaborator): parsing the
dumped text recovers the document except that the encoder skips keys whose
value is None (dump_sections emits a scalar only when the value is not
None), so None-valued keys are absent from the re-parsed document. -/
def tomlRoundtrip (doc : List (String × Option Toml)) : List (String × Toml) :=
  doc.filterMap fun kv => kv.2.map fun v => (kv.1, v)

/-- Deserialization loads (config.py, 118-138) applied to a parsed TOML
document: the required name key, the optional cmd and entrypoint keys, and
the volumes key defaulting to an empty table, fed to the BundleConfig
constructor. -/
def loads (doc : List (String × Toml)) : Except ConfigErr BundleConfig :=
  match lookupKey "name" doc with
  | none => .error (.missingKey "required key name missing from config")
  | some nameVal =>
      mkBundleConfig nameVal (lookupKey "cmd" doc) (lookupKey "entrypoint" doc)
        ((lookupKey "volumes" doc).getD (.table []))

/-- One volume value is in normalized form: a table whose bind key maps to
a string, whose mode key maps to rw or ro, and with no other keys. -/
def volNormalized : Toml → Bool
  | .table kvs =>
      (match lookupKey "bind" kvs with
       | some (.str _) => true
       | _ => false)
      && (match lookupKey "mode" kvs with
          | some (.str m) => m == "rw" || m == "ro"
          | _ => false)
      && kvs.all (fun kv => kv.1 == "bind" || kv.1 == "mode")
  | _ => false

/-- A BundleConfig is valid when its cmd and entrypoint pass the string-or
string-list validator and every volume entry is in normalized form, which
is exactly what successful construction guarantees. -/
def BundleConfig.valid (c : BundleConfig) : Bool :=
  (match is_str_or_strlist "cmd" c.cmd with
   | .ok _ => true
   | .error _ => false)
  && (match is_str_or_strlist "entrypoint" c.entrypoint with
      | .ok _ => true
      | .error _ => false)
  && c.volumes.all fun kv => volNormalized kv.2

theorem standardize_volumes_id (vols : List (String × Toml))
    (h : ∀ kv ∈ vols, volNormalized kv.2 = true) :
    standardize_volumes vols = vols := by
  induction vols with
  | nil => rfl
  | cons kv rest ih =>
    obtain ⟨k, v⟩ := kv
    have hv := h _ (List.mem_cons_self _ _)
    have hrest := ih fun kv hkv => h _ (List.mem_cons_of_mem _ hkv)
    cases v with
    | str s => simp [volNormalized] at hv
    | arr l => simp [volNormalized] at hv
    | table kvs => simpa [standardize_volumes] using hrest

theorem validate_volume_entry_ok (k : String) (kvs : List (String × Toml))
    (h : volNormalized (.table kvs) = true) :
    validate_volume_entry k kvs = .ok () := by
  unfold volNormalized at h
  unfold validate_volume_entry
  cases hb : lookupKey "bind" kvs with
  | none => simp [hb] at h
  | some bv =>
    cases bv with
    | arr l => simp [hb] at h
    | table t => simp [hb] at h
    | str b =>
      cases hm : lookupKey "mode" kvs with
      | none => simp [hb, hm] at h
      | some mv =>
        cases mv with
        | arr l => simp [hb, hm] at h
        | table t => simp [hb, hm] at h
        | str m =>
          simp only [hb, hm, Bool.and_eq_true, Bool.or_eq_true, beq_iff_eq] at h
          obtain ⟨⟨-, hmode⟩, hall⟩ := h
          simp [hmode, hall]

theorem validate_volumes_data_ok (vols : List (String × Toml))
    (h : ∀ kv ∈ vols, volNormalized kv.2 = true) :
    validate_volumes_data vols = .ok () := by
  induction vols with
  | nil => rfl
  | cons kv rest ih =>
    obtain ⟨k, v⟩ := kv
    have hv := h _ (List.mem_cons_self _ _)
    have hrest := ih fun kv hkv => h _ (List.mem_cons_of_mem _ hkv)
    cases v with
    | str s => simp [volNormalized] at hv
    | arr l => simp [volNormalized] at hv
    | table kvs =>
      simp [validate_volumes_data, validate_volume_entry_ok k kvs hv, hrest]

/-- C5: serialization of BundleConfig is the structural inverse of parsing:
for every valid config c, re-parsing the serialized output yields a config
structurally equal to c. -/
theorem C5_bundleconfig_roundtrip (c : BundleConfig) (h : c.valid = true) :
    loads (tomlRoundtrip c.asdict) = .ok c := by
  obtain ⟨name, cmd, entrypoint, volumes⟩ := c
  simp only [BundleConfig.valid, Bool.and_eq_true, List.all_eq_true] at h
  obtain ⟨⟨hcmd, hent⟩, hvols⟩ := h
  have hcmd' : is_str_or_strlist "cmd" cmd = .ok () := by
    cases hc : is_str_or_strlist "cmd" cmd with
    | ok u => cases u; rfl
    | error e => simp [hc] at hcmd
  have hent' : is_str_or_strlist "entrypoint" entrypoint = .ok () := by
    cases hc : is_str_or_strlist "entrypoint" entrypoint with
    | ok u => cases u; rfl
    | error e => simp [hc] at hent
  have hstd := standardize_volumes_id volumes hvols
  have hval := validate_volumes_data_ok volumes hvols
  cases cmd <;> cases entrypoint <;>
    simp_all [BundleConfig.asdict, tomlRoundtrip, loads, lookupKey,
      mkBundleConfig, pyStr]

/-- Concrete valid configuration used to witness the round-trip theorem. -/
def c5sample : BundleConfig :=
  ⟨"demo", some (.str "run"), none,
   [("data.txt", .table [("bind", .str "/data.txt"), ("mode", .str "rw")])]⟩

theorem C5_bundleconfig_roundtrip_witness :
    c5sample.valid = true ∧ loads (tomlRoundtrip c5sample.asdict) = .ok c5sample :=
  ⟨rfl, C5_bundleconfig_roundtrip c5sample rfl⟩

/-- Packaging errors of create_bundle (bundle/bundler.py): the required
yardgoat.toml is missing from the directory, or parsing it failed. -/
inductive CreateErr
  | bundleConfigNotPresent (msg : String)
  | configErr (e : ConfigErr)

/-- Model of a hashlib hash object at its interface: the state is the byte
stream fed so far via update, and hexdigest applies the digest function H
(instantiated with SHA-256 in the source) to that stream. -/
structure HashState where
  acc : List Nat

/-- hashlib update: feeding a buffer appends it to the hashed stream. -/
def HashState.update (st : HashState) (buf : List Nat) : HashState :=
  ⟨st.acc ++ buf⟩

/-- hashlib hexdigest under digest function H. -/
def HashState.hexdigest (H : List Nat → String) (st : HashState) : String :=
  H st.acc

/-- The read-and-update loop of create_bundle (bundler.py, 82-86): read a
chunk of cs bytes from the remaining stream and feed it to the hash state
until the read returns an empty buffer.  The source always calls this with
cs = 65536; the cs = 0 guard only serves termination of the embedding. -/
def feedChunks (cs : Nat) (bytes : List Nat) (st : HashState) : HashState :=
  if bytes = [] ∨ cs = 0 then st
  else feedChunks cs (bytes.drop cs) (st.update (bytes.take cs))
termination_by bytes.length
decreasing_by
  rename_i h
  push_neg at h
  have h1 : bytes.length ≠ 0 := fun hz => h.1 (List.eq_nil_of_length_eq_zero hz)
  simp only [List.length_drop]
  omega

theorem feedChunks_acc (cs : Nat) (hcs : 0 < cs) :
    ∀ (n : Nat) (bytes : List Nat), bytes.length ≤ n →
      ∀ st : HashState, (feedChunks cs bytes st).acc = st.acc ++ bytes := by
  intro n
  induction n with
  | zero =>
    intro bytes hb st
    have : bytes = [] := List.eq_nil_of_length_eq_zero (Nat.le_zero.mp hb)
    subst this
    rw [feedChunks]
    simp
  | succ n ih =>
    intro bytes hb st
    by_cases he : bytes = []
    · subst he; rw [feedChunks]; simp
    · rw [feedChunks]
      have hguard : ¬(bytes = [] ∨ cs = 0) := by
        push_neg
        exact ⟨he, Nat.pos_iff_ne_zero.mp hcs⟩
      rw [if_neg hguard]
      have hlen : (bytes.drop cs).length ≤ n := by
        have h0 : bytes.length ≠ 0 := fun hz => he (List.eq_nil_of_length_eq_zero hz)
        simp only [List.length_drop]
        omega
      rw [ih (bytes.drop cs) hlen]
      simp [HashState.update, List.take_append_drop]

/-- Result of create_bundle in the embedding: the parsed configuration,
the raw bytes of the produced archive, and the base filename the archive
is renamed to. -/
structure CreateResult where
  config : BundleConfig
  archiveBytes : List Nat
  fileName : String

/-- A directory candidate for bundling: its files as raw bytes, and the
parsed TOML document of its yardgoat.toml when that file is present and
readable (none models the FileNotFoundError branch; the text layer of the
TOML parse is the out-of-scope collaborator). -/
structure DirModel where
  files : List (String × List Nat)
  config : Option (List (String × Toml))

/-- create_bundle (bundle/bundler.py, 53-91).  External collaborators are
parameters: H models the SHA-256 hex digest over a byte stream and tarOf
models the TarFile packing of the directory entries (with the .git
filter).  The function requires yardgoat.toml, packs the directory into a
temporary tar file, hashes that file in 65536-byte chunks, and renames it
to the hex digest with the .goat extension; renaming preserves the bytes,
so the result carries the same bytes that were hashed. -/
def create_bundle (H : List Nat → String) (tarOf : DirModel → List Nat)
    (dir : DirModel) : Except CreateErr CreateResult :=
  match dir.config with
  | none => .error (.bundleConfigNotPresent "no yardgoat.toml found in directory")
  | some doc =>
    match loads doc with
    | .error e => .error (.configErr e)
    | .ok config =>
      let archiveBytes := tarOf dir
      let digest := HashState.hexdigest H (feedChunks 65536 archiveBytes ⟨[]⟩)
      .ok ⟨config, archiveBytes, digest ++ ".goat"⟩

/-- S3Storage.upload (storage/s3.py, 17-19): the object key under which
the archive is uploaded, and the returned storage identifier, are the
base filename of the archive. -/
def S3Storage.uploadKey (r : CreateResult) : String :=
  r.fileName

/-- C6: create_bundle names the produced archive exactly the hex SHA-256
digest of the raw archive bytes plus the fixed .goat extension; the bytes
of the renamed archive are exactly the bytes that were packed and hashed,
so re-hashing the archive reproduces the filename stem, and the storage
identifier used by upload is that content-addressed filename. -/
theorem C6_content_addressed_name (H : List Nat → String)
    (tarOf : DirModel → List Nat) (dir : DirModel) (r : CreateResult)
    (h : create_bundle H tarOf dir = .ok r) :
    r.fileName = H r.archiveBytes ++ ".goat" ∧ r.archiveBytes = tarOf dir ∧
      S3Storage.uploadKey r = H r.archiveBytes ++ ".goat" := by
  cases hc : dir.config with
  | none => simp [create_bundle, hc] at h
  | some doc =>
    cases hl : loads doc with
    | error e => simp [create_bundle, hc, hl] at h
    | ok config =>
      simp only [create_bundle, hc, hl] at h
      simp only [Except.ok.injEq] at h
      subst h
      have hacc := feedChunks_acc 65536 (by norm_num) (tarOf dir).length
        (tarOf dir) (Nat.le_refl _) ⟨[]⟩
      simp [HashState.hexdigest, S3Storage.uploadKey, hacc]

/-- Concrete instantiation of the external digest and tar collaborators
used to witness the content-addressing theorem. -/
def digestSample : List Nat → String :=
  fun bytes => String.mk (bytes.map fun _ => 'a')

/-- Concrete tar packing: the concatenated file bytes. -/
def tarSample : DirModel → List Nat :=
  fun dir => dir.files.flatMap fun f => f.2

/-- Concrete directory with a yardgoat.toml declaring only a name. -/
def dirSample : DirModel :=
  ⟨[("yardgoat.toml", [1, 2])], some [("name", .str "demo")]⟩

theorem C6_content_addressed_name_witness :
    create_bundle digestSample tarSample dirSample =
      .ok ⟨⟨"demo", none, none, []⟩, [1, 2], "aa.goat"⟩ ∧
    "aa.goat" = digestSample [1, 2] ++ ".goat" := by
  have hf : feedChunks 65536 [1, 2] ⟨[]⟩ = (⟨[1, 2]⟩ : HashState) := by
    have h2 := feedChunks_acc 65536 (by norm_num) 2 [1, 2] (by norm_num) ⟨[]⟩
    simp only [List.nil_append] at h2
    exact congrArg HashState.mk h2
  have h : create_bundle digestSample tarSample dirSample =
      .ok ⟨⟨"demo", none, none, []⟩, [1, 2], "aa.goat"⟩ := by
    simp only [create_bundle, dirSample, tarSample, loads, lookupKey,
      mkBundleConfig, is_str_or_strlist, standardize_volumes,
      validate_volumes_data, pyStr]
    norm_num
    rw [hf]
    simp [HashState.hexdigest, digestSample]
    rfl
  refine ⟨h, ?_⟩
  have := (C6_content_addressed_name digestSample tarSample dirSample _ h).1
  simpa using this

/-- Characters allowed in a URI scheme by urllib.parse: ASCII letters and
digits and plus, minus, dot. -/
def scheme_chars (c : Char) : Bool :=
  c.isAlphanum || c == '+' || c == '-' || c == '.'

/-- Characters that end the network-location part in urllib.parse. -/
def netlocDelim (c : Char) : Bool :=
  c == '/' || c == '?' || c == '#'

/-- Split a character list at the first occurrence of c, returning the
parts before and after it, or none when c does not occur. -/
def splitFirst (c : Char) : List Char → Option (List Char × List Char)
  | [] => none
  | x :: xs =>
      if x = c then some ([], xs)
      else (splitFirst c xs).map fun p => (x :: p.1, p.2)

/-- Split off the network location: everything up to the first delimiter;
the delimiter and the remainder stay in the second component. -/
def splitNetloc : List Char → List Char × List Char
  | [] => ([], [])
  | x :: xs =>
      if netlocDelim x then ([], x :: xs)
      else
        let p := splitNetloc xs
        (x :: p.1, p.2)

/-- The scheme, netloc and path components of urllib.parse.ParseResult
consumed by ObjectURI.from_parse_result.  The params, query and fragment
components are split off by urlparse below exactly as urllib does, but
their values are not represented here because from_parse_result ignores
them. -/
structure ParseResult where
  scheme : String
  netloc : String
  path : String
  deriving DecidableEq, Repr

/-- Split a character list at the last occurrence of c. -/
def splitLast (c : Char) (l : List Char) : Option (List Char × List Char) :=
  (splitFirst c l.reverse).map fun p => (p.2.reverse, p.1.reverse)

/-- Fragment removal of urlsplit: everything from the first hash mark on
is the fragment and is dropped from the url. -/
def stripFragment (l : List Char) : List Char :=
  match splitFirst '#' l with
  | some (pre, _) => pre
  | none => l

/-- Query removal of urlsplit: everything from the first question mark on
(after fragment removal) is the query and is dropped from the url. -/
def stripQuery (l : List Char) : List Char :=
  match splitFirst '?' l with
  | some (pre, _) => pre
  | none => l

/-- The schemes for which urllib.parse.urlparse splits params off the
path (urllib.parse.uses_params). -/
def uses_params : List String :=
  ["", "ftp", "hdl", "prospero", "http", "imap", "https", "shttp", "rtsp",
   "rtspu", "sip", "sips", "mms", "sftp", "tel"]

/-- urllib.parse._splitparams on the path: when the path contains a
slash, the params start at the first semicolon within the last segment
(none there means no split, even if an earlier segment has one);
otherwise at the first semicolon of the whole path.  Only the path part
is returned because the params value is discarded. -/
def splitParams (url : List Char) : List Char :=
  match splitLast '/' url with
  | some (before, after) =>
      match splitFirst ';' after with
      | some (a1, _) => before ++ '/' :: a1
      | none => url
  | none =>
      match splitFirst ';' url with
      | some (a1, _) => a1
      | none => url

/-- The params step of urlparse: params are split off only for schemes in
uses_params. -/
def stripParams (scheme : String) (url : List Char) : List Char :=
  if uses_params.contains scheme then splitParams url else url

/-- Second half of urlparse: after the scheme has been split off, a rest
beginning with two slashes yields a netloc up to the next delimiter; then
the fragment (from the first hash), the query (from the first question
mark) and, for schemes using them, the params are split off the
remainder, leaving the path. -/
def parseRest (scheme : String) (rest : List Char) : ParseResult :=
  let p :=
    match rest with
    | '/' :: '/' :: rest' => splitNetloc rest'
    | _ => ([], rest)
  let url := stripFragment p.2
  let url := stripQuery url
  let url := stripParams scheme url
  ⟨scheme, ⟨p.1⟩, ⟨url⟩⟩

/-- Model of the Python standard library urllib.parse.urlparse: a
non-empty prefix of scheme characters before a colon is the scheme,
lowercased; a following double slash introduces the network location up
to the next slash, question mark or hash; the fragment, query and (for
schemes in uses_params) params are then split off the remainder, and
what is left is the path. -/
def urlparse (s : String) : ParseResult :=
  match splitFirst ':' s.data with
  | some (pre, post) =>
      if !pre.isEmpty && pre.all scheme_chars then
        parseRest ⟨pre.map Char.toLower⟩ post
      else parseRest "" s.data
  | none => parseRest "" s.data

/-- ObjectURI (worker/types.py, 11-32): a frozen attrs class holding
scheme, authority and path.  The class declares no validators, so
construction is the plain record constructor and accepts any scheme. -/
structure ObjectURI where
  scheme : String
  authority : String
  path : String
  deriving DecidableEq, Repr

/-- ObjectURI.from_parse_result (worker/types.py, 34-53): scheme, netloc
and path are copied; all other ParseResult attributes are ignored. -/
def ObjectURI.from_parse_result (pr : ParseResult) : ObjectURI :=
  ⟨pr.scheme, pr.netloc, pr.path⟩

/-- ObjectURI.to_uri_string (worker/types.py, 55-64): with a truthy
authority the result is scheme ++ :// ++ authority ++ path; otherwise it
is scheme ++ path (no separator of any kind is inserted). -/
def ObjectURI.to_uri_string (u : ObjectURI) : String :=
  if u.authority ≠ "" then
    u.scheme ++ "://" ++ u.authority ++ u.path
  else
    u.scheme ++ u.path

/-- Model of a value of the external ulid library, as returned by
ulid.from_str: a distinct wrapper type, not a Python str. -/
structure ULID where
  chars : String
  deriving DecidableEq, Repr

/-- ulid.from_str: accepts exactly the canonical 26-character
representation (the alphabet check of the library is not modelled; no
claim depends on it). -/
def ULID.from_str (s : String) : Except String ULID :=
  if s.length = 26 then .ok ⟨s⟩ else .error "invalid ULID length"

/-- The dynamically-typed id field of a Job: Job.new stores a str, while
SQSJobQueue.get_open_request stores a ULID value. -/
inductive JobId
  | str (s : String)
  | ulid (u : ULID)
  deriving DecidableEq, Repr

/-- A yardgoat Job (worker/types.py, 83-159): frozen attrs class with an
id, a bundle URI and an optional output URI. -/
structure Job where
  id : JobId
  bundle_uri : ObjectURI
  output_uri : Option ObjectURI
  deriving DecidableEq, Repr

/-- An argument accepted where a URI is expected: either a string or an
ObjectURI, as in the Union annotation of the Job fields. -/
inductive UriArg
  | str (s : String)
  | uri (u : ObjectURI)
  deriving DecidableEq, Repr

/-- The converter _convert_uri (worker/types.py, 67-73): an ObjectURI
passes through; a string is parsed with urlparse and copied field-wise.
The None branch is handled at the optional field itself. -/
def convert_uri : UriArg → ObjectURI
  | .str s => ObjectURI.from_parse_result (urlparse s)
  | .uri u => u

/-- The validator _validate_uri (worker/types.py, 76-80): a missing value
passes; a present ObjectURI must have the scheme s3, any other scheme
raises ValueError. -/
def validate_uri : Option ObjectURI → Except String Unit
  | none => .ok ()
  | some u =>
      if u.scheme ≠ "s3" then .error "only s3 uris are currently supported"
      else .ok ()

/-- Construction of a Job (worker/types.py, 83-118): the converter
_convert_uri runs on bundle_uri and output_uri, then the validator
_validate_uri checks each converted value. -/
def Job.make (id : JobId) (bundle : UriArg) (output : Option UriArg) :
    Except String Job :=
  let b := convert_uri bundle
  let o := Option.map convert_uri output
  match validate_uri (some b) with
  | .error e => .error e
  | .ok _ =>
    match validate_uri o with
    | .error e => .error e
    | .ok _ => .ok ⟨id, b, o⟩

theorem map_id_of_forall {α : Type} (l : List α) (f : α → α)
    (h : ∀ a ∈ l, f a = a) : l.map f = l := by
  induction l with
  | nil => rfl
  | cons x xs ih =>
    simp [h x (List.mem_cons_self x xs),
      ih fun a ha => h a (List.mem_cons_of_mem _ ha)]

theorem splitFirst_append (c : Char) (pre post : List Char) (h : c ∉ pre) :
    splitFirst c (pre ++ c :: post) = some (pre, post) := by
  induction pre with
  | nil => simp [splitFirst]
  | cons x xs ih =>
    have hx : x ≠ c := fun hxc => h (hxc ▸ List.mem_cons_self x xs)
    have hxs : c ∉ xs := fun hm => h (List.mem_cons_of_mem _ hm)
    simp [splitFirst, if_neg hx, List.append_eq, ih hxs]

theorem splitNetloc_append (auth rest : List Char)
    (hauth : ∀ c ∈ auth, netlocDelim c = false)
    (hrest : rest = [] ∨ ∃ r, rest = '/' :: r) :
    splitNetloc (auth ++ rest) = (auth, rest) := by
  induction auth with
  | nil =>
    rcases hrest with h | ⟨r, h⟩ <;> subst h
    · rfl
    · simp [splitNetloc, netlocDelim]
  | cons x xs ih =>
    have hx := hauth x (List.mem_cons_self x xs)
    have hxs := ih fun c hc => hauth c (List.mem_cons_of_mem _ hc)
    simp [splitNetloc, hx, List.append_eq, hxs]

theorem splitFirst_eq_none (c : Char) (l : List Char) (h : c ∉ l) :
    splitFirst c l = none := by
  induction l with
  | nil => rfl
  | cons x xs ih =>
    have hx : x ≠ c := fun he => h (he ▸ List.mem_cons_self x xs)
    simp [splitFirst, hx, ih fun hm => h (List.mem_cons_of_mem _ hm)]

theorem splitFirst_sound (c : Char) (l pre post : List Char)
    (h : splitFirst c l = some (pre, post)) : l = pre ++ c :: post := by
  induction l generalizing pre post with
  | nil => simp [splitFirst] at h
  | cons x xs ih =>
    by_cases hx : x = c
    · subst hx
      rw [splitFirst, if_pos rfl] at h
      simp only [Option.some.injEq, Prod.mk.injEq] at h
      rw [← h.1, ← h.2]
      simp
    · simp only [splitFirst, if_neg hx] at h
      cases hs : splitFirst c xs with
      | none => rw [hs] at h; simp at h
      | some p =>
        obtain ⟨p1, p2⟩ := p
        rw [hs] at h
        simp only [Option.map_some', Option.some.injEq, Prod.mk.injEq] at h
        rw [← h.1, ← h.2]
        simp [ih p1 p2 hs]

theorem stripFragment_id (l : List Char) (h : '#' ∉ l) :
    stripFragment l = l := by
  unfold stripFragment
  rw [splitFirst_eq_none '#' l h]

theorem stripQuery_id (l : List Char) (h : '?' ∉ l) :
    stripQuery l = l := by
  unfold stripQuery
  rw [splitFirst_eq_none '?' l h]

theorem splitParams_id (l : List Char) (h : ';' ∉ l) :
    splitParams l = l := by
  unfold splitParams
  cases hsl : splitLast '/' l with
  | none => simp [splitFirst_eq_none ';' l h]
  | some p =>
    obtain ⟨b, a⟩ := p
    have hdec : l = b ++ '/' :: a := by
      simp only [splitLast] at hsl
      cases hsf : splitFirst '/' l.reverse with
      | none => rw [hsf] at hsl; simp at hsl
      | some q =>
        obtain ⟨q1, q2⟩ := q
        rw [hsf] at hsl
        simp only [Option.map_some', Option.some.injEq, Prod.mk.injEq] at hsl
        have hrev := splitFirst_sound '/' l.reverse q1 q2 hsf
        have hl : l = (q1 ++ '/' :: q2).reverse := by
          rw [← hrev, List.reverse_reverse]
        rw [hl, ← hsl.1, ← hsl.2]
        simp
    have hna : ';' ∉ a := fun hm =>
      h (hdec ▸ List.mem_append_right _ (List.mem_cons_of_mem _ hm))
    simp [splitFirst_eq_none ';' a hna]

theorem stripParams_id (scheme : String) (l : List Char) (h : ';' ∉ l) :
    stripParams scheme l = l := by
  unfold stripParams
  split
  · exact splitParams_id l h
  · rfl

/-- C7 counterexample: an ObjectURI built from its own fields with a path
that does not begin with a slash does not print in the claimed canonical
form scheme://authority/path; to_uri_string inserts no separator between
authority and path. -/
theorem C7_counterexample :
    (ObjectURI.mk "s3" "bucket" "key").to_uri_string = "s3://bucketkey" ∧
      ("s3://bucketkey" : String) ≠ "s3://bucket/key" := by
  constructor <;> decide

/-- C7 amended: to_uri_string returns scheme ++ :// ++ authority ++ path
when the authority is non-empty (which is the canonical
scheme://authority/path exactly when the path begins with a slash, as it
does for every URI parsed from a string of that shape), and scheme ++ path
when the authority is empty; consequently parsing any URI string of the
form scheme://authority/path with a lowercase scheme, a non-empty
authority and a path free of the query, fragment and params separators
into an ObjectURI and printing it reproduces the string, and in
particular s3://bucket/key round-trips. -/
theorem C7_amended_roundtrip (scheme auth path : String)
    (hs : scheme ≠ "")
    (hsc : ∀ c ∈ scheme.data, scheme_chars c = true ∧ c.toLower = c)
    (ha : auth ≠ "")
    (had : ∀ c ∈ auth.data, netlocDelim c = false)
    (hp : path = "" ∨ ∃ r, path.data = '/' :: r)
    (hpf : '#' ∉ path.data) (hpq : '?' ∉ path.data) (hpp : ';' ∉ path.data) :
    (ObjectURI.from_parse_result
        (urlparse (scheme ++ "://" ++ auth ++ path))).to_uri_string =
      scheme ++ "://" ++ auth ++ path := by
  obtain ⟨sd⟩ := scheme
  obtain ⟨ad⟩ := auth
  obtain ⟨pd⟩ := path
  have hdata : (String.mk sd ++ "://" ++ String.mk ad ++ String.mk pd).data =
      sd ++ ':' :: '/' :: '/' :: (ad ++ pd) := by
    show ((sd ++ [':', '/', '/']) ++ ad) ++ pd = _
    simp [List.append_assoc]
  have hcolon : ':' ∉ sd := by
    intro hm
    have := (hsc ':' hm).1
    simp [scheme_chars, Char.isAlphanum, Char.isAlpha, Char.isLower,
      Char.isUpper, Char.isDigit] at this
  have hlower : sd.map Char.toLower = sd :=
    map_id_of_forall sd Char.toLower fun c hc => (hsc c hc).2
  have hne : sd ≠ [] := fun hnil => hs (congrArg String.mk hnil)
  have hall : sd.all scheme_chars = true :=
    List.all_eq_true.mpr fun c hc => (hsc c hc).1
  have hie : sd.isEmpty = false := by
    cases sd with
    | nil => exact absurd rfl hne
    | cons a l => rfl
  have hu : urlparse (String.mk sd ++ "://" ++ String.mk ad ++ String.mk pd) =
      parseRest ⟨sd.map Char.toLower⟩ ('/' :: '/' :: (ad ++ pd)) := by
    unfold urlparse
    rw [hdata, splitFirst_append ':' sd (('/') :: '/' :: (ad ++ pd)) hcolon]
    simp [hie, hall]
  rw [hu, hlower]
  unfold parseRest
  have hsplit := splitNetloc_append ad pd had
    (by rcases hp with h | ⟨r, h⟩
        · left; simpa using congrArg String.data h
        · right; exact ⟨r, h⟩)
  simp only [hsplit, stripFragment_id pd hpf, stripQuery_id pd hpq,
    stripParams_id (String.mk sd) pd hpp]
  have hane : String.mk ad ≠ "" := ha
  simp only [ObjectURI.from_parse_result, ObjectURI.to_uri_string]
  rw [if_pos hane]

theorem C7_amended_roundtrip_witness :
    (ObjectURI.from_parse_result (urlparse "s3://bucket/key")).to_uri_string =
      "s3://bucket/key" := by
  have h := C7_amended_roundtrip "s3" "bucket" "/key" (by decide) (by decide)
    (by decide) (by decide) (by right; exact ⟨"key".data, rfl⟩)
    (by decide) (by decide) (by decide)
  simpa using h

/-- C8 counterexample: constructing an ObjectURI with the non-supported
scheme http does not fail validation: the class declares no validator, so
construction (from fields or from a URI string via the converter)
succeeds and yields the value unchanged. -/
theorem C8_counterexample :
    convert_uri (.str "http://example.com/x") =
      ObjectURI.mk "http" "example.com" "/x" := by
  decide

theorem validate_uri_ok_scheme (u : ObjectURI) (w : Unit)
    (h : validate_uri (some u) = .ok w) : u.scheme = "s3" := by
  by_contra hne
  simp [validate_uri, hne] at h

/-- C8 amended: scheme validation happens on Job construction, not on
ObjectURI: every Job that constructs successfully has the s3 scheme on
bundle_uri and on output_uri when present, construction with s3 URIs
succeeds, construction with an http URI in either field fails with an
error, while an ObjectURI with scheme http is constructible directly. -/
theorem C8_amended_scheme_validation :
    (∀ (id : JobId) (bundle : UriArg) (output : Option UriArg) (j : Job),
        Job.make id bundle output = .ok j →
          j.bundle_uri.scheme = "s3" ∧
            ∀ u, j.output_uri = some u → u.scheme = "s3") ∧
      Job.make (.str "job1") (.str "s3://bucket/key") none =
        .ok ⟨.str "job1", ⟨"s3", "bucket", "/key"⟩, none⟩ ∧
      Job.make (.str "job1") (.str "http://bucket/key") none =
        .error "only s3 uris are currently supported" ∧
      Job.make (.str "job1") (.str "s3://bucket/key")
          (some (.str "http://bucket/out")) =
        .error "only s3 uris are currently supported" ∧
      (ObjectURI.mk "http" "example.com" "/x").scheme = "http" := by
  refine ⟨?_, rfl, rfl, rfl, rfl⟩
  intro id bundle output j h
  simp only [Job.make] at h
  cases hb : validate_uri (some (convert_uri bundle)) with
  | error e => rw [hb] at h; exact absurd h (by simp)
  | ok u =>
    rw [hb] at h
    cases ho : validate_uri (Option.map convert_uri output) with
    | error e => rw [ho] at h; exact absurd h (by simp)
    | ok v =>
      rw [ho] at h
      simp only [Except.ok.injEq] at h
      subst h
      constructor
      · exact validate_uri_ok_scheme _ u hb
      · intro u' hu'
        have hmap : Option.map convert_uri output = some u' := hu'
        rw [hmap] at ho
        exact validate_uri_ok_scheme u' v ho

theorem C8_amended_scheme_validation_witness :
    Job.make (.str "w") (.uri ⟨"s3", "b", "/k"⟩) none =
        .ok ⟨.str "w", ⟨"s3", "b", "/k"⟩, none⟩ ∧
      (⟨"s3", "b", "/k"⟩ : ObjectURI).scheme = "s3" := by
  have h : Job.make (.str "w") (.uri ⟨"s3", "b", "/k"⟩) none =
      .ok ⟨.str "w", ⟨"s3", "b", "/k"⟩, none⟩ := rfl
  exact ⟨h, (C8_amended_scheme_validation.1 _ _ _ _ h).1⟩

/-- Split a character list on the slash character; the pieces between
slashes, in order, including empty pieces. -/
def splitOnSlash : List Char → List (List Char)
  | [] => [[]]
  | c :: cs =>
      if c = '/' then [] :: splitOnSlash cs
      else
        match splitOnSlash cs with
        | [] => [[c]]
        | p :: ps => (c :: p) :: ps

/-- Model of pathlib.PurePath(s).parts for POSIX paths: a leading slash
contributes a root part, and the remaining components are the non-empty,
non-dot pieces between slashes. -/
def pathParts (s : String) : List String :=
  let comps := ((splitOnSlash s.data).map String.mk).filter fun c =>
    c != "" && c != "."
  if s.data.head? = some '/' then "/" :: comps else comps

/-- Model of pathlib.PurePath(s).name: the last component, or the empty
string for the root or the empty path. -/
def pathName (s : String) : String :=
  (((pathParts s).filter fun c => c != "/").getLast?).getD ""

/-- Model of tempdir.joinpath(PurePath(k)): an absolute k replaces the
base, a relative k is appended with a slash. -/
def joinPath (base k : String) : String :=
  if k.data.head? = some '/' then k else base ++ "/" ++ k

/-- Engine errors (engine/exceptions.py): a declared volume path missing
from the bundle file tree. -/
inductive EngineErr
  | missingVolumeFile (msg : String)
  deriving DecidableEq, Repr

/-- One resolved mount passed to the container run call: either a bind
mount of a path extracted from the bundle, or an engine-managed named
Docker volume; both carry the configured bind/mode table value. -/
inductive Mount
  | hostPath (abs : String) (spec : Toml)
  | dockerVolume (nm : String) (spec : Toml)

/-- The volume-resolution loop of DockerEngine.execute (engine/docker.py,
62-74).  The file tree produced by extract_volume_files is modelled from
the spec as the predicate fsExists on absolute paths, because that helper
is imported from yardgoat.bundle but absent from the sources.  Each
declared key resolves, in order, to: a bind mount of the extracted
absolute path when it exists; otherwise a freshly created Docker volume
named after the single path component when the key has exactly one part;
otherwise a MissingVolumeFile error, raised at the first such key.  The
result is the mount mapping together with the names of the Docker volumes
created. -/
def resolveVolumes (fsExists : String → Bool) (tempdir : String) :
    List (String × Toml) → Except EngineErr (List Mount × List String)
  | [] => .ok ([], [])
  | (k, spec) :: rest =>
    let absolute := joinPath tempdir k
    if fsExists absolute then
      match resolveVolumes fsExists tempdir rest with
      | .ok (ms, vs) => .ok (.hostPath absolute spec :: ms, vs)
      | .error e => .error e
    else if (pathParts k).length = 1 then
      match resolveVolumes fsExists tempdir rest with
      | .ok (ms, vs) =>
          .ok (.dockerVolume (pathName k) spec :: ms, pathName k :: vs)
      | .error e => .error e
    else
      .error (.missingVolumeFile
        ("file " ++ k ++ " does not exist in the Bundle file"))

/-- A bare volume name as the claim uses the term: non-empty, not the
current-directory marker, and containing no directory separator. -/
def bareName (k : String) : Bool :=
  k != "" && k != "." && !(k.data.contains '/')

theorem splitOnSlash_no_slash (l : List Char) (h : '/' ∉ l) :
    splitOnSlash l = [l] := by
  induction l with
  | nil => rfl
  | cons c cs ih =>
    have hc : c ≠ '/' := fun hcc => h (hcc ▸ List.mem_cons_self c cs)
    have hcs : '/' ∉ cs := fun hm => h (List.mem_cons_of_mem _ hm)
    simp [splitOnSlash, hc, ih hcs]

theorem pathParts_bare (k : String) (h : bareName k = true) :
    pathParts k = [k] := by
  obtain ⟨kd⟩ := k
  simp only [bareName, Bool.and_eq_true] at h
  obtain ⟨⟨hne, hdot⟩, hslb⟩ := h
  have hsl : '/' ∉ kd := by simpa using hslb
  have hne' : String.mk kd ≠ "" := by simpa using hne
  have hdot' : String.mk kd ≠ "." := by simpa using hdot
  have hsplit : splitOnSlash kd = [kd] := splitOnSlash_no_slash kd hsl
  have hhead : kd.head? ≠ some '/' := by
    intro hh
    cases kd with
    | nil => simp at hh
    | cons c cs =>
      simp only [List.head?, Option.some.injEq] at hh
      exact hsl (hh ▸ List.mem_cons_self c cs)
  unfold pathParts
  simp only [hsplit, List.map_cons, List.map_nil]
  rw [if_neg hhead]
  simp [bne_iff_ne.mpr hne', bne_iff_ne.mpr hdot']

theorem pathName_bare (k : String) (h : bareName k = true) :
    pathName k = k := by
  have hp := pathParts_bare k h
  have hsl : k ≠ "/" := by
    intro hk
    simp [bareName, hk] at h
  unfold pathName
  rw [hp]
  simp [bne_iff_ne.mpr hsl]

theorem resolveVolumes_hostPath (fsExists : String → Bool) (tempdir : String) :
    ∀ (vols : List (String × Toml)) (k : String) (spec : Toml)
      (ms : List Mount) (vs : List String),
      (k, spec) ∈ vols → fsExists (joinPath tempdir k) = true →
      resolveVolumes fsExists tempdir vols = .ok (ms, vs) →
      Mount.hostPath (joinPath tempdir k) spec ∈ ms := by
  intro vols
  induction vols with
  | nil => intro k spec ms vs hmem _ _; simp at hmem
  | cons kv rest ih =>
    intro k spec ms vs hmem hex hres
    obtain ⟨k', spec'⟩ := kv
    simp only [resolveVolumes] at hres
    rcases List.mem_cons.mp hmem with heq | htail
    · injection heq with hk hspec
      subst hk; subst hspec
      rw [if_pos hex] at hres
      cases hrec : resolveVolumes fsExists tempdir rest with
      | error e => rw [hrec] at hres; exact absurd hres (by simp)
      | ok p =>
        obtain ⟨ms', vs'⟩ := p
        rw [hrec] at hres
        simp only [Except.ok.injEq, Prod.mk.injEq] at hres
        exact hres.1 ▸ List.mem_cons_self _ _
    · by_cases hex' : fsExists (joinPath tempdir k') = true
      · rw [if_pos hex'] at hres
        cases hrec : resolveVolumes fsExists tempdir rest with
        | error e => rw [hrec] at hres; exact absurd hres (by simp)
        | ok p =>
          obtain ⟨ms', vs'⟩ := p
          rw [hrec] at hres
          simp only [Except.ok.injEq, Prod.mk.injEq] at hres
          exact hres.1 ▸
            List.mem_cons_of_mem _ (ih k spec ms' vs' htail hex hrec)
      · rw [if_neg hex'] at hres
        by_cases hlen : (pathParts k').length = 1
        · rw [if_pos hlen] at hres
          cases hrec : resolveVolumes fsExists tempdir rest with
          | error e => rw [hrec] at hres; exact absurd hres (by simp)
          | ok p =>
            obtain ⟨ms', vs'⟩ := p
            rw [hrec] at hres
            simp only [Except.ok.injEq, Prod.mk.injEq] at hres
            exact hres.1 ▸
              List.mem_cons_of_mem _ (ih k spec ms' vs' htail hex hrec)
        · rw [if_neg hlen] at hres
          exact absurd hres (by simp)

theorem resolveVolumes_bare (fsExists : String → Bool) (tempdir : String) :
    ∀ (vols : List (String × Toml)) (k : String) (spec : Toml)
      (ms : List Mount) (vs : List String),
      (k, spec) ∈ vols → fsExists (joinPath tempdir k) = false →
      bareName k = true →
      resolveVolumes fsExists tempdir vols = .ok (ms, vs) →
      Mount.dockerVolume k spec ∈ ms ∧ k ∈ vs := by
  intro vols
  induction vols with
  | nil => intro k spec ms vs hmem _ _ _; simp at hmem
  | cons kv rest ih =>
    intro k spec ms vs hmem hex hbare hres
    obtain ⟨k', spec'⟩ := kv
    simp only [resolveVolumes] at hres
    rcases List.mem_cons.mp hmem with heq | htail
    · injection heq with hk hspec
      subst hk; subst hspec
      rw [if_neg (by simp [hex])] at hres
      rw [if_pos (by simp [pathParts_bare k hbare])] at hres
      cases hrec : resolveVolumes fsExists tempdir rest with
      | error e => rw [hrec] at hres; exact absurd hres (by simp)
      | ok p =>
        obtain ⟨ms', vs'⟩ := p
        rw [hrec] at hres
        simp only [Except.ok.injEq, Prod.mk.injEq] at hres
        rw [pathName_bare k hbare] at hres
        exact ⟨hres.1 ▸ List.mem_cons_self _ _,
          hres.2 ▸ List.mem_cons_self _ _⟩
    · by_cases hex' : fsExists (joinPath tempdir k') = true
      · rw [if_pos hex'] at hres
        cases hrec : resolveVolumes fsExists tempdir rest with
        | error e => rw [hrec] at hres; exact absurd hres (by simp)
        | ok p =>
          obtain ⟨ms', vs'⟩ := p
          rw [hrec] at hres
          simp only [Except.ok.injEq, Prod.mk.injEq] at hres
          have hih := ih k spec ms' vs' htail hex hbare hrec
          exact ⟨hres.1 ▸ List.mem_cons_of_mem _ hih.1, hres.2 ▸ hih.2⟩
      · rw [if_neg hex'] at hres
        by_cases hlen : (pathParts k').length = 1
        · rw [if_pos hlen] at hres
          cases hrec : resolveVolumes fsExists tempdir rest with
          | error e => rw [hrec] at hres; exact absurd hres (by simp)
          | ok p =>
            obtain ⟨ms', vs'⟩ := p
            rw [hrec] at hres
            simp only [Except.ok.injEq, Prod.mk.injEq] at hres
            have hih := ih k spec ms' vs' htail hex hbare hrec
            exact ⟨hres.1 ▸ List.mem_cons_of_mem _ hih.1,
              hres.2 ▸ List.mem_cons_of_mem _ hih.2⟩
        · rw [if_neg hlen] at hres
          exact absurd hres (by simp)

theorem resolveVolumes_missing (fsExists : String → Bool) (tempdir : String) :
    ∀ (vols : List (String × Toml)) (k : String) (spec : Toml),
      (k, spec) ∈ vols → fsExists (joinPath tempdir k) = false →
      2 ≤ (pathParts k).length →
      ∃ msg, resolveVolumes fsExists tempdir vols =
        .error (.missingVolumeFile msg) := by
  intro vols
  induction vols with
  | nil => intro k spec hmem _ _; simp at hmem
  | cons kv rest ih =>
    intro k spec hmem hex hlen
    obtain ⟨k', spec'⟩ := kv
    rcases List.mem_cons.mp hmem with heq | htail
    · injection heq with hk hspec
      subst hk; subst hspec
      refine ⟨"file " ++ k ++ " does not exist in the Bundle file", ?_⟩
      simp only [resolveVolumes]
      rw [if_neg (by simp [hex]), if_neg (by omega)]
    · by_cases hex' : fsExists (joinPath tempdir k') = true
      · obtain ⟨msg, hmsg⟩ := ih k spec htail hex hlen
        refine ⟨msg, ?_⟩
        simp only [resolveVolumes]
        rw [if_pos hex', hmsg]
      · by_cases hlen' : (pathParts k').length = 1
        · obtain ⟨msg, hmsg⟩ := ih k spec htail hex hlen
          refine ⟨msg, ?_⟩
          simp only [resolveVolumes]
          rw [if_neg (by simp [hex']), if_pos hlen', hmsg]
        · refine ⟨"file " ++ k' ++ " does not exist in the Bundle file", ?_⟩
          simp only [resolveVolumes]
          rw [if_neg (by simp [hex']), if_neg hlen']

/-- C9: volume resolution in DockerEngine.execute.  For every declared
volume entry: a key whose joined path exists in the extracted bundle tree
is bind-mounted from that extracted path with its configured table value;
a key that does not exist and is a single bare name (no directory
separators) provisions a Docker volume named after the bare name, mounted
with its configured table value; and if any key neither exists nor has a
single path component, execution fails with a MissingVolumeFile error. -/
theorem C9_volume_resolution (fsExists : String → Bool) (tempdir : String)
    (vols : List (String × Toml)) :
    (∀ k spec, (k, spec) ∈ vols → fsExists (joinPath tempdir k) = true →
      ∀ ms vs, resolveVolumes fsExists tempdir vols = .ok (ms, vs) →
        Mount.hostPath (joinPath tempdir k) spec ∈ ms) ∧
    (∀ k spec, (k, spec) ∈ vols → fsExists (joinPath tempdir k) = false →
      bareName k = true →
      ∀ ms vs, resolveVolumes fsExists tempdir vols = .ok (ms, vs) →
        Mount.dockerVolume k spec ∈ ms ∧ k ∈ vs) ∧
    (∀ k spec, (k, spec) ∈ vols → fsExists (joinPath tempdir k) = false →
      2 ≤ (pathParts k).length →
      ∃ msg, resolveVolumes fsExists tempdir vols =
        .error (.missingVolumeFile msg)) :=
  ⟨fun k spec hmem hex ms vs hres =>
      resolveVolumes_hostPath fsExists tempdir vols k spec ms vs hmem hex hres,
   fun k spec hmem hex hbare ms vs hres =>
      resolveVolumes_bare fsExists tempdir vols k spec ms vs hmem hex hbare hres,
   fun k spec hmem hex hlen =>
      resolveVolumes_missing fsExists tempdir vols k spec hmem hex hlen⟩

theorem C9_volume_resolution_witness :
    resolveVolumes (fun _ => false) "/scratch" [("data", Toml.str "/data")] =
      .ok ([Mount.dockerVolume "data" (Toml.str "/data")], ["data"]) ∧
    Mount.dockerVolume "data" (Toml.str "/data") ∈
      [Mount.dockerVolume "data" (Toml.str "/data")] ∧
    "data" ∈ ["data"] := by
  have hres : resolveVolumes (fun _ => false) "/scratch"
      [("data", Toml.str "/data")] =
      .ok ([Mount.dockerVolume "data" (Toml.str "/data")], ["data"]) := rfl
  have h := (C9_volume_resolution (fun _ => false) "/scratch"
      [("data", Toml.str "/data")]).2.1 "data" (Toml.str "/data")
      (List.mem_cons_self _ _) rfl rfl _ _ hres
  exact ⟨hres, h.1, h.2⟩

/-- The JSON body of a queue message (worker/queues.py): an id string, a
bundle_uri object with the three URI fields, and an optional output_uri
object, exactly the shape produced by attr.asdict on a Job. -/
structure JobMessage where
  id : String
  bundle_uri : ObjectURI
  output_uri : Option ObjectURI
  deriving DecidableEq, Repr

/-- SQSJobQueue.submit_new_request and mark_completed (queues.py, 52-56):
json.dumps(attr.asdict(job)).  A Job whose id is a ULID value is not JSON
serializable; a str id serializes field-wise. -/
def serializeJob (j : Job) : Except String JobMessage :=
  match j.id with
  | .str s => .ok ⟨s, j.bundle_uri, j.output_uri⟩
  | .ulid _ => .error "Object of type ULID is not JSON serializable"

/-- The deserialization step of SQSJobQueue.get_open_request (queues.py,
46-50): the Job is rebuilt from only the id and bundle_uri fields of the
body, the id parsed into a ULID value by ulid.from_str, the bundle_uri
copied field-wise; output_uri is not passed and therefore defaults to
None. -/
def deserializeOpenJob (m : JobMessage) : Except String Job :=
  match ULID.from_str m.id with
  | .error e => .error e
  | .ok u => Job.make (.ulid u) (.uri m.bundle_uri) none

theorem Job.make_ok (id : JobId) (bundle : UriArg) (output : Option UriArg)
    (j : Job) (h : Job.make id bundle output = .ok j) :
    j = ⟨id, convert_uri bundle, Option.map convert_uri output⟩ := by
  simp only [Job.make] at h
  cases hb : validate_uri (some (convert_uri bundle)) with
  | error e => rw [hb] at h; exact absurd h (by simp)
  | ok u =>
    rw [hb] at h
    cases ho : validate_uri (Option.map convert_uri output) with
    | error e => rw [ho] at h; exact absurd h (by simp)
    | ok v =>
      rw [ho] at h
      simp only [Except.ok.injEq] at h
      exact h.symm

/-- C10: every Job produced by the get_open_request deserializer has
output_uri absent and carries a ULID-typed id parsed from the message id
string; hence a completed Job that is serialized and received back is
never equal to the Job that was submitted. -/
theorem C10_open_request_discards_output :
    (∀ m j, deserializeOpenJob m = .ok j →
      j.output_uri = none ∧ j.id = .ulid ⟨m.id⟩) ∧
    (∀ job m j, serializeJob job = .ok m → job.output_uri ≠ none →
      deserializeOpenJob m = .ok j → j ≠ job) := by
  have hmain : ∀ m j, deserializeOpenJob m = .ok j →
      j.output_uri = none ∧ j.id = .ulid ⟨m.id⟩ := by
    intro m j h
    simp only [deserializeOpenJob] at h
    cases hu : ULID.from_str m.id with
    | error e => rw [hu] at h; exact absurd h (by simp)
    | ok u =>
      rw [hu] at h
      have hj := Job.make_ok _ _ _ _ h
      have hu' : u = ⟨m.id⟩ := by
        simp only [ULID.from_str] at hu
        by_cases hlen : m.id.length = 26
        · rw [if_pos hlen] at hu
          simp only [Except.ok.injEq] at hu
          exact hu.symm
        · rw [if_neg hlen] at hu
          exact absurd hu (by simp)
      subst hu'
      rw [hj]
      exact ⟨rfl, rfl⟩
  refine ⟨hmain, ?_⟩
  intro job m j hser hout hdes heq
  have hnone := (hmain m j hdes).1
  rw [heq] at hnone
  exact hout hnone

/-- A message carrying a completed job body: a 26-character id, a bundle
URI and a set output URI. -/
def messageSample : JobMessage :=
  ⟨"0123456789ABCDEFGHJKMNPQRS", ⟨"s3", "b", "/k"⟩, some ⟨"s3", "o", "/p"⟩⟩

theorem C10_open_request_discards_output_witness :
    deserializeOpenJob messageSample =
      .ok ⟨.ulid ⟨"0123456789ABCDEFGHJKMNPQRS"⟩, ⟨"s3", "b", "/k"⟩, none⟩ ∧
    (⟨.ulid ⟨"0123456789ABCDEFGHJKMNPQRS"⟩, ⟨"s3", "b", "/k"⟩, none⟩ :
        Job).output_uri = none := by
  have h : deserializeOpenJob messageSample =
      .ok ⟨.ulid ⟨"0123456789ABCDEFGHJKMNPQRS"⟩, ⟨"s3", "b", "/k"⟩, none⟩ := rfl
  exact ⟨h, (C10_open_request_discards_output.1 messageSample _ h).1⟩

/-- Python exceptions that can escape the modelled worker cycle: the
AttributeError raised by attribute access on None, and any Exception
raised by a collaborator backend. -/
inductive PyErr
  | attributeError (msg : String)
  | backend (msg : String)
  deriving DecidableEq, Repr

/-- BundleInfo (bundle/bundler.py, 23-50): the parsed configuration and
the path of the bundle tar file. -/
structure BundleInfo where
  config : BundleConfig
  tarfile : String

/-- Artifact (engine/types.py): the engine-assigned name, the source
bundle, and backend metadata. -/
structure Artifact where
  name : String
  bundle : BundleInfo
  metadata : List (String × String)

/-- The environment of one worker cycle: the shutdown flag and the
outcome each collaborator call would produce, making Worker.execute_next_job
a function of the stubbed Engine, JobQueue and StorageSystem exactly as
the Worker depends only on their interfaces. -/
structure WorkerEnv where
  shutdownSet : Bool
  queueResult : Option Job
  downloadResult : Except PyErr BundleInfo
  buildResult : Except PyErr Artifact
  executeResult : Except PyErr Unit

/-- Observable outcome of one call to execute_next_job: the exception
escaping the call if any, which collaborator calls were made, and whether
the downloaded archive file and the scratch directory still exist after
the call returns. -/
structure CycleTrace where
  raised : Option PyErr
  downloadCalled : Bool
  buildCalled : Bool
  executeCalled : Bool
  archiveExists : Bool
  scratchDirExists : Bool
  deriving DecidableEq, Repr

/-- Worker.execute_next_job (worker/worker.py, 58-73), line by line.  The
shutdown branch constructs RuntimeError(...) without raising or returning
it, so it has no effect and the cycle proceeds regardless of the flag.
The TemporaryDirectory context creates the scratch directory and removes
it on every exit, normal or exceptional.  get_open_request returning None
makes the subsequent attribute access job.bundle_uri raise AttributeError
before storage.download is called.  A download error propagates.  After a
successful download the try block runs build and then execute; any
Exception from either is swallowed by the bare except-pass, and the
finally clause unlinks the downloaded archive on every path. -/
def executeNextJob (env : WorkerEnv) : CycleTrace :=
  let start : CycleTrace :=
    { raised := none, downloadCalled := false, buildCalled := false,
      executeCalled := false, archiveExists := false, scratchDirExists := true }
  let body : CycleTrace :=
    match env.queueResult with
    | none =>
        { start with
            raised := some (.attributeError
              "NoneType object has no attribute bundle_uri") }
    | some _ =>
      match env.downloadResult with
      | .error e => { start with downloadCalled := true, raised := some e }
      | .ok _ =>
        let afterDownload :=
          { start with downloadCalled := true, archiveExists := true }
        let afterTry :=
          match env.buildResult with
          | .error _ => { afterDownload with buildCalled := true }
          | .ok _ =>
            match env.executeResult with
            | .error _ =>
                { afterDownload with buildCalled := true, executeCalled := true }
            | .ok _ =>
                { afterDownload with buildCalled := true, executeCalled := true }
        { afterTry with archiveExists := false }
  { body with scratchDirExists := false }

/-- C1: in every cycle that reaches the download step and downloads its
bundle, the archive file and the scratch directory no longer exist once
execute_next_job returns, on every exit path, whether build and execute
return normally or raise. -/
theorem C1_cleanup_on_every_exit (env : WorkerEnv) (job : Job)
    (b : BundleInfo) (hq : env.queueResult = some job)
    (hd : env.downloadResult = .ok b) :
    (executeNextJob env).archiveExists = false ∧
      (executeNextJob env).scratchDirExists = false := by
  simp only [executeNextJob, hq, hd]
  cases env.buildResult <;> cases env.executeResult <;> simp

/-- Sample collaborators for the worker cycle witnesses. -/
def jobSample : Job := ⟨.str "j", ⟨"s3", "b", "/k"⟩, none⟩

/-- Sample downloaded bundle for the worker cycle witnesses. -/
def bundleSample : BundleInfo := ⟨⟨"demo", none, none, []⟩, "/tmp/x.goat"⟩

/-- Sample built artifact for the worker cycle witnesses. -/
def artifactSample : Artifact := ⟨"img", bundleSample, []⟩

/-- Cycle in which the engine build raises and everything else succeeds. -/
def envBuildFail : WorkerEnv :=
  ⟨false, some jobSample, .ok bundleSample, .error (.backend "boom"), .ok ()⟩

theorem C1_cleanup_on_every_exit_witness :
    envBuildFail.queueResult = some jobSample ∧
    envBuildFail.downloadResult = .ok bundleSample ∧
    (executeNextJob envBuildFail).archiveExists = false ∧
      (executeNextJob envBuildFail).scratchDirExists = false :=
  ⟨rfl, rfl, C1_cleanup_on_every_exit envBuildFail jobSample bundleSample rfl rfl⟩

/-- Cycle in which the queue has no job available. -/
def envEmptyQueue : WorkerEnv :=
  ⟨false, none, .ok bundleSample, .ok artifactSample, .ok ()⟩

/-- C2, code behavior at the failing input: when get_open_request returns
None the cycle does not end normally; execute_next_job raises
AttributeError from the attribute access job.bundle_uri on None.  No
download, build or execute is attempted (and the scratch directory the
cycle created is removed again), but the call raises instead of
returning normally as the claim states. -/
theorem C2_empty_queue_raises :
    executeNextJob envEmptyQueue =
      { raised := some (.attributeError
          "NoneType object has no attribute bundle_uri"),
        downloadCalled := false, buildCalled := false, executeCalled := false,
        archiveExists := false, scratchDirExists := false } := rfl

/-- Cycle in which shutdown has been signaled and a job is available. -/
def envShutdown : WorkerEnv :=
  ⟨true, some jobSample, .ok bundleSample, .ok artifactSample, .ok ()⟩

/-- C3, code behavior at the failing input: with the shutdown flag set,
execute_next_job still dequeues, downloads, builds and executes, and
returns normally; the RuntimeError in the source is constructed but never
raised, so the guard has no effect. -/
theorem C3_shutdown_does_not_fail_fast :
    envShutdown.shutdownSet = true ∧
    executeNextJob envShutdown =
      { raised := none, downloadCalled := true, buildCalled := true,
        executeCalled := true, archiveExists := false,
        scratchDirExists := false } :=
  ⟨rfl, rfl⟩

/-- C4 counterexample: a backend error raised by Engine.build is not
propagated out of execute_next_job; the call returns normally, so the
error does not reach the caller unchanged. -/
theorem C4_counterexample :
    envBuildFail.buildResult = .error (.backend "boom") ∧
      (executeNextJob envBuildFail).raised = none :=
  ⟨rfl, rfl⟩

/-- C4 amended: errors raised by Engine.build or Engine.execute are
caught and suppressed by the bare except in execute_next_job, which then
returns normally after its unconditional cleanup (they are not
interpreted, translated or re-raised); an error from Storage.download, by
contrast, propagates unchanged. -/
theorem C4_amended_engine_errors_swallowed (env : WorkerEnv) (job : Job)
    (hq : env.queueResult = some job) :
    (∀ b, env.downloadResult = .ok b →
      (executeNextJob env).raised = none ∧
        (executeNextJob env).archiveExists = false) ∧
    (∀ e, env.downloadResult = .error e →
      (executeNextJob env).raised = some e) := by
  constructor
  · intro b hd
    simp only [executeNextJob, hq, hd]
    cases env.buildResult <;> cases env.executeResult <;> simp
  · intro e hd
    simp only [executeNextJob, hq, hd]

theorem C4_amended_engine_errors_swallowed_witness :
    envBuildFail.queueResult = some jobSample ∧
    envBuildFail.downloadResult = .ok bundleSample ∧
    (executeNextJob envBuildFail).raised = none ∧
      (executeNextJob envBuildFail).archiveExists = false :=
  ⟨rfl, rfl,
    (C4_amended_engine_errors_swallowed envBuildFail jobSample rfl).1
      bundleSample rfl⟩

end Yardgoat
